import Mathlib

/-!
# Verification of the farcaster-steam-link achievement core

A shallow embedding of the repository's core logic:

* the achievement aggregation route `src/app/api/steam/get-achievements/route.ts`
  (cache reads, three upstream fetches, validation, merge, sort, response);
* the Redis-backed cache behaviour of `src/lib/redis.ts` as seen by the route
  (connection may fail, `get`/`set` may fail, each failure is caught locally);
* the event reconciliation worker (`pollForEvents`): watermark seeding,
  bounded log windows, advance-on-success;
* the deterministic token-id derivation of `handleMint`
  (`keccak256(encodePacked(['uint32','string'], [appId, name]))` interpreted
  via `hexToBigInt`), together with a full executable Keccak-256.

JavaScript numbers that only ever flow through comparisons and literal
defaults (achievement percentages) are modelled as rationals; block numbers,
timestamps and HTTP statuses as naturals/integers.  `new Map(pairs)` lookup is
modelled with later-entries-win semantics, and `Array.prototype.sort` with the
stable `List.mergeSort` on the comparator's non-positive relation, which is
exactly what the ECMAScript specification guarantees for a consistent
comparator.
-/

/-! ## Data model (src/types/steam.ts) -/

/-- One entry of `GetPlayerAchievements`: `{apiname, achieved, unlocktime}`. -/
structure PlayerAchievement where
  apiname : String
  achieved : Int
  unlocktime : Int
  deriving Repr, DecidableEq

/-- One schema entry of `GetSchemaForGame`. -/
structure AchievementSchema where
  name : String
  defaultvalue : Int
  displayName : String
  hidden : Int
  description : String
  icon : String
  icongray : String
  deriving Repr, DecidableEq

/-- One entry of `GetGlobalAchievementPercentagesForApp`. -/
structure GlobalAchievementPercentage where
  name : String
  percent : ℚ
  deriving Repr, DecidableEq

/-- The merged, user-facing view (`CombinedAchievement extends AchievementSchema`). -/
structure CombinedAchievement extends AchievementSchema where
  achieved : Bool
  unlocktime : Int
  percent : ℚ
  deriving Repr, DecidableEq

/-! ## Raw upstream response shapes (route.ts local interfaces) -/

/-- `playerstats` object of the `GetPlayerAchievements` response. -/
structure PlayerStats where
  steamID : Option String
  gameName : Option String
  achievements : Option (List PlayerAchievement)
  success : Bool
  message : Option String
  deriving Repr, DecidableEq

/-- `PlayerStatsResponse` of route.ts. -/
structure PlayerStatsResponse where
  playerstats : Option PlayerStats
  deriving Repr, DecidableEq

/-- `availableGameStats` object of the schema response. -/
structure GameStats where
  achievements : List AchievementSchema
  deriving Repr, DecidableEq

/-- `game` object of the schema response. -/
structure GameSchema where
  gameName : String
  gameVersion : String
  availableGameStats : Option GameStats
  deriving Repr, DecidableEq

/-- `SchemaResponse` of route.ts. -/
structure SchemaResponse where
  game : Option GameSchema
  deriving Repr, DecidableEq

/-- `achievementpercentages` object of the global percentages response. -/
structure AchievementPercentages where
  achievements : List GlobalAchievementPercentage
  deriving Repr, DecidableEq

/-- `GlobalPercentagesResponse` of route.ts. -/
structure GlobalPercentagesResponse where
  achievementpercentages : Option AchievementPercentages
  deriving Repr, DecidableEq

/-! ## HTTP layer -/

/-- Body of a `NextResponse.json(...)`: either `{message}` or the success payload
`{gameName, steamId, achievements}`. -/
inductive ResponseBody
  | errorMsg (message : String)
  | success (gameName : String) (steamId : String)
      (achievements : List CombinedAchievement)
  deriving Repr, DecidableEq

/-- An HTTP response of the route: status code and JSON body. -/
structure ApiResponse where
  status : Nat
  body : ResponseBody
  deriving Repr, DecidableEq

/-! ## Cache and upstream effect model

The route touches the outside world through: the Redis connection
(`getRedisClient()` resolves or rejects), `redis.get` (value / null / throws),
`redis.set` (ok / throws), and `fetch` of the three Steam endpoints (resolves
with an ok response, resolves with an HTTP error status, rejects with a
transport error, or the body fails to parse as JSON).  Each possibility is one
constructor below; the handler is a pure function of one such environment. -/

/-- Outcome of `await redis.get(key)` as observed by the route:
`err` = the promise rejected (caught and logged by the route),
`miss` = `null`, `hit` = a cached string whose `JSON.parse` yields `val`. -/
inductive GetOutcome (α : Type)
  | err
  | miss
  | hit (val : α)
  deriving Repr, DecidableEq

/-- Outcome of `await fetch(url)` (+ `.json()`):
`throws` = transport error (the promise rejected), `notOk` = HTTP error
status with the error body text parsed as `errorBody` when it is JSON of the
expected shape, `okBadJson` = HTTP ok but `.json()` rejected (malformed body),
`ok` = HTTP ok with a parsed JSON value. -/
inductive FetchResult (α : Type)
  | throws
  | notOk (status : Nat) (errorBody : Option α)
  | okBadJson
  | ok (data : α)
  deriving Repr, DecidableEq

/-- A value serialized into the cache (`JSON.stringify` of one of the three
upstream payload shapes). -/
inductive CachedVal
  | pv (d : PlayerStatsResponse)
  | sv (d : SchemaResponse)
  | gv (d : GlobalPercentagesResponse)
  deriving Repr, DecidableEq

/-- One `redis.set(key, value, {EX: ttl})` performed by the route. -/
structure CacheWrite where
  key : String
  val : CachedVal
  ttl : Nat
  deriving Repr, DecidableEq

/-- An upstream gateway invocation (one `fetch` of a Steam endpoint). -/
inductive UpstreamCall
  | playerCall
  | schemaCall
  | globalCall
  deriving Repr, DecidableEq

/-- The whole outside world for one request, fixed up front: request inputs,
environment configuration, cache behaviour and the three fetch outcomes. -/
structure HandlerEnv where
  steamId : Option String
  appId : Option String
  apiKey : Option String
  redisConnects : Bool
  playerCacheGet : GetOutcome PlayerStatsResponse
  schemaCacheGet : GetOutcome SchemaResponse
  globalCacheGet : GetOutcome GlobalPercentagesResponse
  playerFetch : FetchResult PlayerStatsResponse
  schemaFetch : FetchResult SchemaResponse
  globalFetch : FetchResult GlobalPercentagesResponse
  setFails : Bool
  deriving Repr, DecidableEq

/-- Everything observable about one handler run: the HTTP response, the
upstream calls issued (in order) and the cache writes performed. -/
structure RunResult where
  response : ApiResponse
  calls : List UpstreamCall
  writes : List CacheWrite
  deriving Repr, DecidableEq

/-! ## Small JS semantics helpers -/

/-- JS truthiness of an optional string (`undefined`, `null` and `""` are
falsy): returns the truthy value, if any. -/
def optTruthy : Option String → Option String
  | none => none
  | some s => if s = "" then none else some s

/-- Lookup in `new Map(pairs)`: for duplicate keys the later entry wins. -/
def jsMapLookup {β : Type} (pairs : List (String × β)) (k : String) : Option β :=
  (pairs.reverse.find? (fun p => p.1 == k)).map (fun p => p.2)

/-- `CACHE_TTL_SECONDS` of route.ts. -/
def CACHE_TTL_SECONDS : Nat := 3600

/-- Cache key `playerAch:{steamId}:{appId}`. -/
def playerCacheKey (steamId appId : String) : String :=
  "playerAch:" ++ steamId ++ ":" ++ appId

/-- Cache key `schema:{appId}`. -/
def schemaCacheKey (appId : String) : String :=
  "schema:" ++ appId

/-- Cache key `globalAch:{appId}`. -/
def globalCacheKey (appId : String) : String :=
  "globalAch:" ++ appId

/-- `playerAchievementsData?.playerstats?.success` as a boolean. -/
def playerSuccess (d : PlayerStatsResponse) : Bool :=
  match d.playerstats with
  | some ps => ps.success
  | none => false

/-- Truthiness of `schemaData?.game?.availableGameStats?.achievements`
(an array, even empty, is truthy; only a missing link in the chain is falsy). -/
def schemaHasAchievements (d : SchemaResponse) : Bool :=
  match d.game with
  | some g => g.availableGameStats.isSome
  | none => false

/-- The achievements list of a schema response (meaningful when
`schemaHasAchievements` holds). -/
def schemaAchList (d : SchemaResponse) : List AchievementSchema :=
  match d.game with
  | some g =>
    match g.availableGameStats with
    | some st => st.achievements
    | none => []
  | none => []

/-- `schemaData.game.gameName` (meaningful when the game object exists). -/
def gameNameOf (d : SchemaResponse) : String :=
  match d.game with
  | some g => g.gameName
  | none => ""

/-- `globalPercentagesData?.achievementpercentages?.achievements || []`. -/
def globalAchList (d : GlobalPercentagesResponse) : List GlobalAchievementPercentage :=
  match d.achievementpercentages with
  | some ap => ap.achievements
  | none => []

/-- The 404 message of the player-data validation branch:
`playerstats?.message || 'Could not retrieve achievements (…)'`. -/
def playerValidationMessage (d : PlayerStatsResponse) : String :=
  let fallback := "Could not retrieve achievements (profile private or no stats for this game?)."
  match d.playerstats with
  | some ps =>
    match ps.message with
    | some m => if m = "" then fallback else m
    | none => fallback
  | none => fallback

/-- `playerAchievementsData.playerstats.achievements || []`. -/
def playerAchList (d : PlayerStatsResponse) : List PlayerAchievement :=
  match d.playerstats with
  | some ps => ps.achievements.getD []
  | none => []

/-! ## The three resolve stages (cache → fetch → cache write) -/

/-- Result of one resolve stage: either an early-exit HTTP response or the
payload, together with the upstream calls issued and cache writes performed
inside the stage. -/
structure StageOut (α : Type) where
  result : Except ApiResponse α
  calls : List UpstreamCall
  writes : List CacheWrite

/-- The `An internal server error occurred.` 500 produced by the route's outer
`catch` when any awaited promise inside the `try` block rejects. -/
def internalError : ApiResponse :=
  ⟨500, ResponseBody.errorMsg "An internal server error occurred."⟩

/-- Player achievements stage of route.ts: cache read (errors caught = miss),
else `fetch`; on an HTTP error status the error body is probed for
`playerstats.success === false && playerstats.message` and turned into a 404,
otherwise the upstream status is passed through; on success the payload is
cached only when `playerstats.success` is truthy and the `set` succeeds. -/
def playerStage (env : HandlerEnv) (steamId appId : String) :
    StageOut PlayerStatsResponse :=
  let cached : Option PlayerStatsResponse :=
    if env.redisConnects then
      match env.playerCacheGet with
      | GetOutcome.hit d => some d
      | _ => none
    else none
  match cached with
  | some d => ⟨Except.ok d, [], []⟩
  | none =>
    match env.playerFetch with
    | FetchResult.throws => ⟨Except.error internalError, [UpstreamCall.playerCall], []⟩
    | FetchResult.okBadJson => ⟨Except.error internalError, [UpstreamCall.playerCall], []⟩
    | FetchResult.notOk status errorBody =>
      let special : Option String :=
        match errorBody with
        | some b =>
          match b.playerstats with
          | some ps =>
            match ps.message with
            | some m => if ps.success = false ∧ m ≠ "" then some m else none
            | none => none
          | none => none
        | none => none
      match special with
      | some m => ⟨Except.error ⟨404, ResponseBody.errorMsg m⟩, [UpstreamCall.playerCall], []⟩
      | none =>
        ⟨Except.error ⟨status, ResponseBody.errorMsg
            ("Failed to fetch player achievements. Status: " ++ toString status)⟩,
          [UpstreamCall.playerCall], []⟩
    | FetchResult.ok d =>
      let writes :=
        if env.redisConnects ∧ playerSuccess d ∧ ¬env.setFails then
          [⟨playerCacheKey steamId appId, CachedVal.pv d, CACHE_TTL_SECONDS⟩]
        else []
      ⟨Except.ok d, [UpstreamCall.playerCall], writes⟩

/-- Game schema stage of route.ts: cache read (errors caught = miss), else
`fetch`; an HTTP error passes the upstream status through; on success the
payload is cached only when the achievements chain is present and the `set`
succeeds. -/
def schemaStage (env : HandlerEnv) (appId : String) : StageOut SchemaResponse :=
  let cached : Option SchemaResponse :=
    if env.redisConnects then
      match env.schemaCacheGet with
      | GetOutcome.hit d => some d
      | _ => none
    else none
  match cached with
  | some d => ⟨Except.ok d, [], []⟩
  | none =>
    match env.schemaFetch with
    | FetchResult.throws => ⟨Except.error internalError, [UpstreamCall.schemaCall], []⟩
    | FetchResult.okBadJson => ⟨Except.error internalError, [UpstreamCall.schemaCall], []⟩
    | FetchResult.notOk status _ =>
      ⟨Except.error ⟨status, ResponseBody.errorMsg
          ("Failed to fetch game schema. Status: " ++ toString status)⟩,
        [UpstreamCall.schemaCall], []⟩
    | FetchResult.ok d =>
      let writes :=
        if env.redisConnects ∧ schemaHasAchievements d ∧ ¬env.setFails then
          [⟨schemaCacheKey appId, CachedVal.sv d, CACHE_TTL_SECONDS⟩]
        else []
      ⟨Except.ok d, [UpstreamCall.schemaCall], writes⟩

/-- Global percentages stage of route.ts: cache read (errors caught = miss),
else `fetch`; an HTTP error status degrades to the default
`{achievementpercentages: {achievements: []}}` structure without caching; a
transport error or malformed body rejects into the outer catch (500); an ok
response is cached unconditionally (shape not checked) when the `set`
succeeds. -/
def globalStage (env : HandlerEnv) (appId : String) :
    StageOut GlobalPercentagesResponse :=
  let cached : Option GlobalPercentagesResponse :=
    if env.redisConnects then
      match env.globalCacheGet with
      | GetOutcome.hit d => some d
      | _ => none
    else none
  match cached with
  | some d => ⟨Except.ok d, [], []⟩
  | none =>
    match env.globalFetch with
    | FetchResult.throws => ⟨Except.error internalError, [UpstreamCall.globalCall], []⟩
    | FetchResult.okBadJson => ⟨Except.error internalError, [UpstreamCall.globalCall], []⟩
    | FetchResult.notOk _ _ =>
      ⟨Except.ok ⟨some ⟨[]⟩⟩, [UpstreamCall.globalCall], []⟩
    | FetchResult.ok d =>
      let writes :=
        if env.redisConnects ∧ ¬env.setFails then
          [⟨globalCacheKey appId, CachedVal.gv d, CACHE_TTL_SECONDS⟩]
        else []
      ⟨Except.ok d, [UpstreamCall.globalCall], writes⟩

/-! ## Combine and sort -/

/-- The body of `schemaAchievements.map(...)` in route.ts: join the player map
and the rarity map onto one schema entry. -/
def combineOne (lookupPlayer : String → Option PlayerAchievement)
    (lookupPercent : String → Option ℚ) (schemaAch : AchievementSchema) :
    CombinedAchievement :=
  { toAchievementSchema := schemaAch
    achieved :=
      match lookupPlayer schemaAch.name with
      | some pa => pa.achieved == 1
      | none => false
    unlocktime :=
      match lookupPlayer schemaAch.name with
      | some pa => pa.unlocktime
      | none => 0
    percent := (lookupPercent schemaAch.name).getD 100 }

/-- The pre-sort combined list: `schemaAchievements.map(...)` with the two
`new Map` lookups of route.ts. -/
def combinedList (playerAchievements : List PlayerAchievement)
    (schemaAchievements : List AchievementSchema)
    (globalAchievements : List GlobalAchievementPercentage) :
    List CombinedAchievement :=
  schemaAchievements.map
    (combineOne
      (jsMapLookup (playerAchievements.map (fun a => (a.apiname, a))))
      (jsMapLookup (globalAchievements.map (fun a => (a.name, a.percent)))))

/-- The sort comparator of route.ts as the relation `comparator(a,b) ≤ 0`:
achieved before unachieved, then ascending percent.  (In the source the
`typeof a.percent === 'number'` guard always takes the number branch, the
`percent` field being a number by construction of the combined list.) -/
def sortLE (a b : CombinedAchievement) : Bool :=
  if a.achieved ∧ ¬b.achieved then true
  else if ¬a.achieved ∧ b.achieved then false
  else a.percent ≤ b.percent

/-- `combinedAchievements.sort(comparator)`: ECMAScript `Array.prototype.sort`
with a consistent comparator produces the unique stable, sorted permutation,
i.e. `List.mergeSort` on `sortLE`. -/
def sortCombined (l : List CombinedAchievement) : List CombinedAchievement :=
  l.mergeSort sortLE

/-! ## The GET handler -/

/-- The whole `GET` handler of route.ts as a pure function of its environment:
parameter checks, the three resolve stages with their validations, combine,
sort, respond. -/
def run (env : HandlerEnv) : RunResult :=
  match optTruthy env.steamId with
  | none => ⟨⟨400, ResponseBody.errorMsg "Missing steamId query parameter."⟩, [], []⟩
  | some steamId =>
    match optTruthy env.appId with
    | none => ⟨⟨400, ResponseBody.errorMsg "Missing appId query parameter."⟩, [], []⟩
    | some appId =>
      match optTruthy env.apiKey with
      | none =>
        ⟨⟨500, ResponseBody.errorMsg "Server configuration error: Missing Steam API Key."⟩,
          [], []⟩
      | some _ =>
        let p := playerStage env steamId appId
        match p.result with
        | Except.error r => ⟨r, p.calls, p.writes⟩
        | Except.ok pd =>
          if playerSuccess pd = false then
            ⟨⟨404, ResponseBody.errorMsg (playerValidationMessage pd)⟩, p.calls, p.writes⟩
          else
            let s := schemaStage env appId
            match s.result with
            | Except.error r => ⟨r, p.calls ++ s.calls, p.writes ++ s.writes⟩
            | Except.ok sd =>
              if schemaHasAchievements sd = false then
                ⟨⟨500, ResponseBody.errorMsg "Failed to parse game schema data."⟩,
                  p.calls ++ s.calls, p.writes ++ s.writes⟩
              else
                let g := globalStage env appId
                match g.result with
                | Except.error r =>
                  ⟨r, p.calls ++ s.calls ++ g.calls, p.writes ++ s.writes ++ g.writes⟩
                | Except.ok gd =>
                  let combined :=
                    combinedList (playerAchList pd) (schemaAchList sd) (globalAchList gd)
                  ⟨⟨200, ResponseBody.success (gameNameOf sd) steamId (sortCombined combined)⟩,
                    p.calls ++ s.calls ++ g.calls, p.writes ++ s.writes ++ g.writes⟩

/-! ## Event reconciliation worker (`pollForEvents` of the worker script)

`lastProcessedBlock : bigint | null` is module state; each cycle queries the
chain head, seeds the watermark on first run (`head > 100 ? head - 100 : 0`,
which over naturals is exactly `head - 100`), computes the bounded window,
returns early when there is nothing new, fetches the logs of the window, and
advances the watermark to the window's upper bound only after `processLogs`
returns.  `processLogs` wraps every per-log decode in its own `try`/`catch`
and contains no failing `await`, so a cycle whose `getLogs` resolved always
completes and advances. -/

/-- One raw log as consumed by `processLogs` (its content never influences the
watermark, every decode error being caught inside `processLogs`). -/
structure MintLog where
  topics : List Nat
  data : List Nat
  blockNumber : Nat
  transactionHash : String
  logIndex : Nat
  deriving Repr, DecidableEq

/-- Outcome of the `getLogs` call of one cycle. -/
inductive LogsOutcome
  | fetchFail
  | fetched (logs : List MintLog)
  deriving Repr, DecidableEq

/-- One polling cycle's interaction with the chain: either `getBlockNumber`
rejected, or it returned `head` and `getLogs` (when reached) had the given
outcome. -/
inductive CycleEvent
  | headFail
  | cycle (head : Nat) (outcome : LogsOutcome)
  deriving Repr, DecidableEq

/-- A cycle failed when one of its awaited chain queries rejected. -/
def cycleFailed : CycleEvent → Bool
  | CycleEvent.headFail => true
  | CycleEvent.cycle _ LogsOutcome.fetchFail => true
  | CycleEvent.cycle _ (LogsOutcome.fetched _) => false

/-- `BLOCKS_PER_POLL`. -/
def BLOCKS_PER_POLL : Nat := 500

/-- Observable outcome of one `pollForEvents` cycle: the watermark afterwards
and the `[fromBlock, toBlock]` range passed to `getLogs`, if a fetch was
issued. -/
structure PollResult where
  watermark : Option Nat
  window : Option (Nat × Nat)
  deriving Repr, DecidableEq

/-- One `pollForEvents` cycle over watermark state `last`. -/
def pollStep (last : Option Nat) (ev : CycleEvent) : PollResult :=
  match ev with
  | CycleEvent.headFail => ⟨last, none⟩
  | CycleEvent.cycle head outcome =>
    let w0 : Nat :=
      match last with
      | none => if head > 100 then head - 100 else 0
      | some w => w
    let toBlock : Nat := if w0 + BLOCKS_PER_POLL > head then head else w0 + BLOCKS_PER_POLL
    if w0 ≥ head then ⟨some w0, none⟩
    else
      match outcome with
      | LogsOutcome.fetchFail => ⟨some w0, some (w0 + 1, toBlock)⟩
      | LogsOutcome.fetched _ => ⟨some toBlock, some (w0 + 1, toBlock)⟩

/-- The watermark after a sequence of cycles. -/
def pollTrace (init : Option Nat) (evs : List CycleEvent) : Option Nat :=
  evs.foldl (fun st ev => (pollStep st ev).watermark) init

/-! ## Keccak-256 and the token-id derivation of `handleMint`

`handleMint` computes
`hexToBigInt(keccak256(encodePacked(['uint32','string'], [appId, name])))`.
The viem primitives are modelled by their documented semantics:
`encodePacked` tight-packs a `uint32` as 4 big-endian bytes followed by the
string's UTF-8 bytes; `keccak256` returns the 32-byte digest as a lowercase
`0x`-prefixed hex string; `hexToBigInt` parses that hex string as a
big-endian unsigned integer.  Keccak-256 itself (original Keccak padding,
rate 136) is implemented in full below. -/

/-- 64-bit rotate left. -/
def rotl64 (x n : Nat) : Nat :=
  ((x <<< n) ||| (x >>> (64 - n))) % (2 ^ 64)

/-- Lane `(x, y)` of a 25-lane Keccak state (index `x + 5y`). -/
def lane (st : List Nat) (x y : Nat) : Nat :=
  st.getD (x + 5 * y) 0

/-- Keccak θ step. -/
def theta (st : List Nat) : List Nat :=
  let C := fun x =>
    ((((lane st x 0).xor (lane st x 1)).xor (lane st x 2)).xor (lane st x 3)).xor (lane st x 4)
  let D := fun x => (C ((x + 4) % 5)).xor (rotl64 (C ((x + 1) % 5)) 1)
  (List.range 25).map (fun i => (st.getD i 0).xor (D (i % 5)))

/-- Keccak ρ rotation offsets, indexed by `x + 5y`, generated by the standard
walk: starting at `(1, 0)`, step `t` assigns `(t+1)(t+2)/2 mod 64` and moves to
`(y, (2x+3y) mod 5)`. -/
def rhoOffsets : List Nat :=
  (((List.range 24).foldl
    (fun acc t =>
      let arr := acc.1
      let x := acc.2.1
      let y := acc.2.2
      (arr.set! (x + 5 * y) (((t + 1) * (t + 2) / 2) % 64), y, (2 * x + 3 * y) % 5))
    (Array.mkArray 25 0, 1, 0)).1).toList

/-- Combined Keccak ρ and π steps: `B[y, (2x+3y) % 5] = rotl(A[x, y], r[x, y])`,
written by its inverse index map. -/
def rhoPi (st : List Nat) : List Nat :=
  (List.range 25).map (fun j =>
    let bx := j % 5
    let by_ := j / 5
    let x := (bx + 3 * by_) % 5
    let y := bx
    rotl64 (lane st x y) (rhoOffsets.getD (x + 5 * y) 0))

/-- Keccak χ step. -/
def chi (st : List Nat) : List Nat :=
  (List.range 25).map (fun j =>
    let x := j % 5
    let y := j / 5
    (lane st x y).xor
      (((lane st ((x + 1) % 5) y).xor (2 ^ 64 - 1)).land (lane st ((x + 2) % 5) y)))

/-- Keccak round constants (ι step), one per round. -/
def roundConstants : List Nat :=
  [0x1, 0x8082, 0x800000000000808a,
   0x8000000080008000, 0x808b, 0x80000001,
   0x8000000080008081, 0x8000000000008009, 0x8a,
   0x88, 0x80008009, 0x8000000a,
   0x8000808b, 0x800000000000008b, 0x8000000000008089,
   0x8000000000008003, 0x8000000000008002, 0x8000000000000080,
   0x800a, 0x800000008000000a, 0x8000000080008081,
   0x8000000000008080, 0x80000001, 0x8000000080008008]

/-- Keccak ι step. -/
def iotaStep (rc : Nat) (st : List Nat) : List Nat :=
  match st with
  | [] => []
  | a :: rest => a.xor rc :: rest

/-- The Keccak-f[1600] permutation: 24 rounds of θ, ρπ, χ, ι. -/
def keccakF (st : List Nat) : List Nat :=
  roundConstants.foldl (fun s rc => iotaStep rc (chi (rhoPi (theta s)))) st

/-- Original Keccak multi-rate padding at rate 136 (domain byte `0x01`). -/
def keccakPad (msg : List Nat) : List Nat :=
  let q := 136 - msg.length % 136
  if q = 1 then msg ++ [0x81]
  else msg ++ [0x01] ++ List.replicate (q - 2) 0 ++ [0x80]

/-- A little-endian 8-byte block as one 64-bit lane. -/
def bytesToLane (bs : List Nat) : Nat :=
  bs.foldr (fun b acc => acc * 256 + b) 0

/-- Absorb one 136-byte block into the state and permute. -/
def absorbBlock (st : List Nat) (block : List Nat) : List Nat :=
  keccakF ((List.range 25).map (fun i =>
    if i < 17 then (st.getD i 0).xor (bytesToLane ((block.drop (8 * i)).take 8))
    else st.getD i 0))

/-- Absorb a padded message, 136 bytes at a time (`fuel` bounds the number of
blocks). -/
def absorbBlocks : Nat → List Nat → List Nat → List Nat
  | 0, st, _ => st
  | fuel + 1, st, bs =>
    if bs.length = 0 then st
    else absorbBlocks fuel (absorbBlock st (bs.take 136)) (bs.drop 136)

/-- The 8 little-endian bytes of one 64-bit lane. -/
def laneToBytes (x : Nat) : List Nat :=
  (List.range 8).map (fun i => (x >>> (8 * i)) % 256)

/-- Keccak-256 of a byte sequence, as 32 bytes. -/
def keccak256Bytes (msg : List Nat) : List Nat :=
  let padded := keccakPad msg
  let st := absorbBlocks (padded.length / 136 + 1) (List.replicate 25 0) padded
  ((st.take 4).map laneToBytes).flatten

/-- One lowercase hex character for a nibble. -/
def hexChar (n : Nat) : Char :=
  if n < 10 then Char.ofNat (48 + n) else Char.ofNat (87 + n)

/-- The two lowercase hex characters of one byte. -/
def byteHexChars (b : Nat) : List Char :=
  [hexChar (b / 16), hexChar (b % 16)]

/-- The hex characters of a byte sequence. -/
def bytesHexChars : List Nat → List Char
  | [] => []
  | b :: bs => byteHexChars b ++ bytesHexChars bs

/-- viem `keccak256`: the digest as a `0x`-prefixed lowercase hex string. -/
def keccak256Hex (msg : List Nat) : String :=
  "0x" ++ String.mk (bytesHexChars (keccak256Bytes msg))

/-- Numeric value of a hex character as accepted by `BigInt("0x…")`. -/
def hexCharVal (c : Char) : Nat :=
  if c.toNat ≤ 57 then c.toNat - 48
  else if c.toNat ≤ 70 then c.toNat - 55
  else c.toNat - 87

/-- viem `hexToBigInt` (= `BigInt(hex)`): parse the characters after the `0x`
prefix as a base-16 big-endian number. -/
def hexToBigInt (s : String) : Nat :=
  (s.data.drop 2).foldl (fun acc c => acc * 16 + hexCharVal c) 0

/-- The 4 big-endian bytes of a `uint32` value. -/
def be32 (n : Nat) : List Nat :=
  [n / 2 ^ 24 % 256, n / 2 ^ 16 % 256, n / 2 ^ 8 % 256, n % 256]

/-- The UTF-8 bytes of a string. -/
def utf8Bytes (s : String) : List Nat :=
  s.toUTF8.toList.map (fun b => b.toNat)

/-- viem `encodePacked(['uint32','string'], [appId, name])`: the `uint32` as
4 big-endian bytes, tightly followed by the string's UTF-8 bytes. -/
def encodePackedUint32String (appId : Nat) (name : String) : List Nat :=
  be32 appId ++ utf8Bytes name

/-- The token id computed by `handleMint`:
`hexToBigInt(keccak256(encodePacked(['uint32','string'], [appId, name])))`. -/
def handleMintTokenId (appId : Nat) (name : String) : Nat :=
  hexToBigInt (keccak256Hex (encodePackedUint32String appId name))

/-- Modelled from the spec (§4.4): the 256-bit digest of the tight byte-packed
concatenation of the 32-bit big-endian `appId` and the UTF-8 achievement name,
interpreted as a big-endian unsigned integer. -/
def specTokenId (appId : Nat) (name : String) : Nat :=
  (keccak256Bytes (be32 appId ++ utf8Bytes name)).foldl (fun acc b => acc * 256 + b) 0

/-! ## Helper lemmas -/

/-- Hex round-trip on one nibble. -/
theorem hexCharVal_hexChar : ∀ n < 16, hexCharVal (hexChar n) = n := by decide

/-- Every byte of a Keccak-256 digest is below 256. -/
theorem keccak256Bytes_lt (msg : List Nat) : ∀ b ∈ keccak256Bytes msg, b < 256 := by
  intro b hb
  simp only [keccak256Bytes, List.mem_flatten, List.mem_map] at hb
  obtain ⟨l, ⟨x, hx, rfl⟩, hbl⟩ := hb
  simp only [laneToBytes, List.mem_map, List.mem_range] at hbl
  obtain ⟨i, hi, rfl⟩ := hbl
  exact Nat.mod_lt _ (by norm_num)

/-- Parsing the hex rendering of a byte list in base 16 agrees with reading the
bytes in base 256. -/
theorem hexfold (bs : List Nat) : ∀ acc, (∀ b ∈ bs, b < 256) →
    List.foldl (fun acc c => acc * 16 + hexCharVal c) acc (bytesHexChars bs) =
    List.foldl (fun acc b => acc * 256 + b) acc bs := by
  induction bs with
  | nil => intro acc _; simp [bytesHexChars]
  | cons b bs ih =>
    intro acc hlt
    have hb : b < 256 := hlt b (by simp)
    simp only [bytesHexChars, byteHexChars, List.cons_append, List.nil_append,
      List.foldl_cons]
    rw [ih _ (fun x hx => hlt x (by simp [hx]))]
    have h1 : hexCharVal (hexChar (b / 16)) = b / 16 := hexCharVal_hexChar _ (by omega)
    have h2 : hexCharVal (hexChar (b % 16)) = b % 16 := hexCharVal_hexChar _ (by omega)
    rw [h1, h2]
    have hacc : (acc * 16 + b / 16) * 16 + b % 16 = acc * 256 + b := by omega
    rw [hacc]

/-- Character content of the viem-style hex digest string. -/
theorem keccak256Hex_data (msg : List Nat) :
    (keccak256Hex msg).data = '0' :: 'x' :: bytesHexChars (keccak256Bytes msg) := by
  simp [keccak256Hex, String.data_append]

/-- Single-cycle watermark monotonicity of the worker: from a seeded watermark
every cycle yields a seeded watermark at least as large. -/
theorem pollStep_mono (w : Nat) (ev : CycleEvent) :
    ∃ w', (pollStep (some w) ev).watermark = some w' ∧ w ≤ w' := by
  cases ev with
  | headFail => exact ⟨w, rfl, le_refl w⟩
  | cycle head outcome =>
    simp only [pollStep]
    split
    · exact ⟨w, rfl, le_refl w⟩
    · cases outcome with
      | fetchFail => exact ⟨w, rfl, le_refl w⟩
      | fetched logs =>
        refine ⟨if w + BLOCKS_PER_POLL > head then head else w + BLOCKS_PER_POLL, rfl, ?_⟩
        have : ¬w ≥ head := by assumption
        split <;> omega

/-- Trace-level watermark monotonicity of the worker. -/
theorem pollTrace_mono (evs : List CycleEvent) : ∀ w : Nat,
    ∃ w', pollTrace (some w) evs = some w' ∧ w ≤ w' := by
  induction evs with
  | nil => intro w; exact ⟨w, rfl, le_refl w⟩
  | cons ev evs ih =>
    intro w
    obtain ⟨w1, h1, hle1⟩ := pollStep_mono w ev
    have hstep : pollTrace (some w) (ev :: evs) =
        pollTrace ((pollStep (some w) ev).watermark) evs := rfl
    rw [hstep, h1]
    obtain ⟨w2, h2, hle2⟩ := ih w1
    exact ⟨w2, h2, le_trans hle1 hle2⟩

/-! ## Claims -/

/-- **C5**: the token id minted by `handleMint` is the pure function
`keccak256` of the tight packed concatenation of the 32-bit big-endian `appId`
and the UTF-8 achievement name, with the 256-bit digest read as a big-endian
unsigned integer: the source's hex-string pipeline
(`hexToBigInt (keccak256Hex (encodePacked …))`) coincides with that direct
big-endian interpretation.  Both sides are pure functions of `(appId, name)`
alone, so repeated derivation trivially yields the identical id and no stored
mapping is consulted. -/
theorem claim_C5_tokenId (appId : Nat) (name : String) (h : appId < 2 ^ 32) :
    handleMintTokenId appId name = specTokenId appId name := by
  unfold handleMintTokenId specTokenId hexToBigInt encodePackedUint32String
  rw [keccak256Hex_data]
  simp only [List.drop_succ_cons, List.drop_zero]
  exact hexfold _ 0 (keccak256Bytes_lt _)

/-- Witness for C5 at the spec's scenario input `(440, "TF_PLAY_GAME")`. -/
theorem claim_C5_tokenId_witness :
    440 < 2 ^ 32 ∧ handleMintTokenId 440 "TF_PLAY_GAME" = specTokenId 440 "TF_PLAY_GAME" :=
  ⟨by norm_num, claim_C5_tokenId 440 "TF_PLAY_GAME" (by norm_num)⟩

/-- **C6**: across any sequence of polling cycles the (seeded) watermark is
non-decreasing; on a failed cycle (head query or log fetch rejected) it is
unchanged, so the same window is retried; and whenever it does change, the
cycle's log fetch succeeded (processing always completes, `processLogs`
catching every per-log error) and the new value is the window's upper bound
`min (w + 500) head`. -/
theorem claim_C6_watermark (w : Nat) (ev : CycleEvent) (evs : List CycleEvent) :
    (∃ w', (pollStep (some w) ev).watermark = some w' ∧ w ≤ w')
    ∧ (cycleFailed ev = true → (pollStep (some w) ev).watermark = some w)
    ∧ ((pollStep (some w) ev).watermark ≠ some w →
        cycleFailed ev = false ∧
        ∃ head logs, ev = CycleEvent.cycle head (LogsOutcome.fetched logs) ∧ w < head ∧
          (pollStep (some w) ev).watermark = some (min (w + BLOCKS_PER_POLL) head))
    ∧ (∃ w', pollTrace (some w) evs = some w' ∧ w ≤ w') := by
  refine ⟨pollStep_mono w ev, ?_, ?_, pollTrace_mono evs w⟩
  · intro hfail
    cases ev with
    | headFail => rfl
    | cycle head outcome =>
      cases outcome with
      | fetchFail => simp only [pollStep]; split <;> rfl
      | fetched logs => simp [cycleFailed] at hfail
  · intro hchanged
    cases ev with
    | headFail => exact absurd rfl hchanged
    | cycle head outcome =>
      by_cases hge : w ≥ head
      · exfalso
        apply hchanged
        simp only [pollStep]
        rw [if_pos hge]
      · cases outcome with
        | fetchFail =>
          exfalso
          apply hchanged
          simp only [pollStep]
          rw [if_neg hge]
        | fetched logs =>
          refine ⟨rfl, head, logs, rfl, by omega, ?_⟩
          simp only [pollStep]
          rw [if_neg hge]
          have : (if w + BLOCKS_PER_POLL > head then head else w + BLOCKS_PER_POLL) =
              min (w + BLOCKS_PER_POLL) head := by split <;> omega
          rw [this]

/-- Witness for C6: a failed cycle at watermark 7 and a mixed trace. -/
theorem claim_C6_watermark_witness :
    (∃ w', (pollStep (some 7) (CycleEvent.cycle 1000 LogsOutcome.fetchFail)).watermark =
        some w' ∧ 7 ≤ w')
    ∧ (cycleFailed (CycleEvent.cycle 1000 LogsOutcome.fetchFail) = true →
        (pollStep (some 7) (CycleEvent.cycle 1000 LogsOutcome.fetchFail)).watermark = some 7)
    ∧ ((pollStep (some 7) (CycleEvent.cycle 1000 LogsOutcome.fetchFail)).watermark ≠ some 7 →
        cycleFailed (CycleEvent.cycle 1000 LogsOutcome.fetchFail) = false ∧
        ∃ head logs, CycleEvent.cycle 1000 LogsOutcome.fetchFail =
            CycleEvent.cycle head (LogsOutcome.fetched logs) ∧ 7 < head ∧
          (pollStep (some 7) (CycleEvent.cycle 1000 LogsOutcome.fetchFail)).watermark =
            some (min (7 + BLOCKS_PER_POLL) head))
    ∧ (∃ w', pollTrace (some 7)
        [CycleEvent.headFail, CycleEvent.cycle 1000 (LogsOutcome.fetched [])] = some w' ∧
        7 ≤ w') :=
  claim_C6_watermark 7 (CycleEvent.cycle 1000 LogsOutcome.fetchFail)
    [CycleEvent.headFail, CycleEvent.cycle 1000 (LogsOutcome.fetched [])]

/-- **C7**: a first cycle with no prior watermark behaves exactly as one seeded
at `head - 100` (the cold-start policy; over naturals `head > 100 ? head - 100 : 0`
is `head - 100`); a cycle that fetches logs queries exactly
`[w + 1, min (w + 500) head]`, the window never exceeds 500 blocks nor passes
the chain head, and no fetch is issued when the watermark is at or beyond the
head. -/
theorem claim_C7_window (w head : Nat) (outcome : LogsOutcome) :
    pollStep none (CycleEvent.cycle head outcome) =
        pollStep (some (head - 100)) (CycleEvent.cycle head outcome)
    ∧ (pollStep none (CycleEvent.cycle head LogsOutcome.fetchFail)).watermark =
        some (head - 100)
    ∧ (w < head →
        (pollStep (some w) (CycleEvent.cycle head outcome)).window =
          some (w + 1, min (w + BLOCKS_PER_POLL) head))
    ∧ (head ≤ w → (pollStep (some w) (CycleEvent.cycle head outcome)).window = none)
    ∧ (∀ lo hi, (pollStep (some w) (CycleEvent.cycle head outcome)).window = some (lo, hi) →
        lo = w + 1 ∧ hi = min (w + BLOCKS_PER_POLL) head ∧ hi ≤ head ∧
          hi + 1 - lo ≤ BLOCKS_PER_POLL) := by
  have hseed : (if head > 100 then head - 100 else 0) = head - 100 := by split <;> omega
  have hwin : ∀ v : Nat, v < head →
      (pollStep (some v) (CycleEvent.cycle head outcome)).window =
        some (v + 1, min (v + BLOCKS_PER_POLL) head) := by
    intro v hv
    simp only [pollStep]
    rw [if_neg (by omega)]
    have : (if v + BLOCKS_PER_POLL > head then head else v + BLOCKS_PER_POLL) =
        min (v + BLOCKS_PER_POLL) head := by split <;> omega
    cases outcome <;> simp [this]
  refine ⟨?_, ?_, hwin w, ?_, ?_⟩
  · simp only [pollStep, hseed]
  · simp only [pollStep, hseed]
    split <;> rfl
  · intro hle
    simp only [pollStep]
    rw [if_pos (by omega)]
  · intro lo hi hw
    by_cases hlt : w < head
    · rw [hwin w hlt] at hw
      simp only [Option.some.injEq, Prod.mk.injEq] at hw
      obtain ⟨hlo, hhi⟩ := hw
      refine ⟨hlo.symm, hhi.symm, ?_, ?_⟩ <;> simp [← hlo, ← hhi, BLOCKS_PER_POLL] <;> omega
    · exfalso
      have : (pollStep (some w) (CycleEvent.cycle head outcome)).window = none := by
        simp only [pollStep]
        rw [if_pos (by omega)]
      rw [this] at hw
      exact Option.noConfusion hw

/-- Witness for C7 at `w = 5`, `head = 90`, a successful fetch. -/
theorem claim_C7_window_witness :
    pollStep none (CycleEvent.cycle 90 (LogsOutcome.fetched [])) =
        pollStep (some (90 - 100)) (CycleEvent.cycle 90 (LogsOutcome.fetched []))
    ∧ (pollStep none (CycleEvent.cycle 90 LogsOutcome.fetchFail)).watermark = some (90 - 100)
    ∧ (5 < 90 →
        (pollStep (some 5) (CycleEvent.cycle 90 (LogsOutcome.fetched []))).window =
          some (5 + 1, min (5 + BLOCKS_PER_POLL) 90))
    ∧ (90 ≤ 5 → (pollStep (some 5) (CycleEvent.cycle 90 (LogsOutcome.fetched []))).window = none)
    ∧ (∀ lo hi,
        (pollStep (some 5) (CycleEvent.cycle 90 (LogsOutcome.fetched []))).window =
          some (lo, hi) →
        lo = 5 + 1 ∧ hi = min (5 + BLOCKS_PER_POLL) 90 ∧ hi ≤ 90 ∧
          hi + 1 - lo ≤ BLOCKS_PER_POLL) :=
  claim_C7_window 5 90 (LogsOutcome.fetched [])

/-- **C9**: when the game-schema response lacks the expected achievement list
(`game.availableGameStats.achievements` chain broken), the request fails with
HTTP 500 and the `Failed to parse game schema data.` message — no achievements
payload is produced. -/
theorem claim_C9_malformedSchema (env : HandlerEnv) (sid aid key : String)
    (pd : PlayerStatsResponse) (sd : SchemaResponse)
    (hsid : optTruthy env.steamId = some sid)
    (haid : optTruthy env.appId = some aid)
    (hkey : optTruthy env.apiKey = some key)
    (hp : (playerStage env sid aid).result = Except.ok pd)
    (hps : playerSuccess pd = true)
    (hs : (schemaStage env aid).result = Except.ok sd)
    (hbad : schemaHasAchievements sd = false) :
    (run env).response = ⟨500, ResponseBody.errorMsg "Failed to parse game schema data."⟩ := by
  simp only [run, hsid, haid, hkey, hp, hps, hs, hbad]
  simp

/-- **C8**: when the player-achievements upstream reports failure with a
human-readable reason (`playerstats.success === false` with a truthy
`message`), whether as the parsed body of an HTTP error response or as an
HTTP-ok body, the request fails with status 404 carrying that reason. -/
theorem claim_C8_profileUnreadable (env : HandlerEnv) (sid aid key : String)
    (b : PlayerStatsResponse) (ps : PlayerStats) (m : String)
    (hsid : optTruthy env.steamId = some sid)
    (haid : optTruthy env.appId = some aid)
    (hkey : optTruthy env.apiKey = some key)
    (hnohit : env.redisConnects = false ∨ env.playerCacheGet = GetOutcome.err ∨
      env.playerCacheGet = GetOutcome.miss)
    (hfetch : (∃ st, env.playerFetch = FetchResult.notOk st (some b)) ∨
      env.playerFetch = FetchResult.ok b)
    (hb : b.playerstats = some ps)
    (hsucc : ps.success = false)
    (hm : ps.message = some m)
    (hne : m ≠ "") :
    (run env).response = ⟨404, ResponseBody.errorMsg m⟩ := by
  have hcached : (if env.redisConnects then
      match env.playerCacheGet with
      | GetOutcome.hit d => some d
      | _ => none
    else none) = (none : Option PlayerStatsResponse) := by
    rcases hnohit with h | h | h <;> simp [h]
  rcases hfetch with ⟨st, hf⟩ | hf
  · have hstage : (playerStage env sid aid).result =
        Except.error ⟨404, ResponseBody.errorMsg m⟩ := by
      simp only [playerStage, hcached, hf, hb, hm, hsucc, hne]
      simp [hne]
    simp only [run, hsid, haid, hkey, hstage]
  · have hstage : (playerStage env sid aid).result = Except.ok b := by
      simp only [playerStage, hcached, hf]
    have hpsucc : playerSuccess b = false := by
      simp [playerSuccess, hb, hsucc]
    have hmsg : playerValidationMessage b = m := by
      simp [playerValidationMessage, hb, hm, hne]
    simp only [run, hsid, haid, hkey, hstage, hpsucc, hmsg]
    simp

/-! ## Concrete sample data (the spec's appId 440 scenario) -/

/-- Schema response for the spec scenario: achievements
`TF_PLAY_GAME`, `TF_GET_KILL`. -/
def tfSchema : SchemaResponse :=
  ⟨some ⟨"Team Fortress 2", "1", some ⟨[
    ⟨"TF_PLAY_GAME", 0, "Get a Kill?No-Play", 0, "play the game", "i1", "g1"⟩,
    ⟨"TF_GET_KILL", 0, "Get a Kill", 0, "get one kill", "i2", "g2"⟩]⟩⟩⟩

/-- Player response for the spec scenario: only `TF_PLAY_GAME` unlocked. -/
def tfPlayer : PlayerStatsResponse :=
  ⟨some ⟨some "76561198000000001", some "Team Fortress 2",
    some [⟨"TF_PLAY_GAME", 1, 1700000000⟩], true, none⟩⟩

/-- Global percentages for the spec scenario: 80% and 40%. -/
def tfGlobal : GlobalPercentagesResponse :=
  ⟨some ⟨[⟨"TF_PLAY_GAME", 80⟩, ⟨"TF_GET_KILL", 40⟩]⟩⟩

/-- A fully-working environment for the spec scenario (no cache available, all
three upstream fetches succeed). -/
def happyEnv : HandlerEnv where
  steamId := some "76561198000000001"
  appId := some "440"
  apiKey := some "KEY"
  redisConnects := false
  playerCacheGet := GetOutcome.miss
  schemaCacheGet := GetOutcome.miss
  globalCacheGet := GetOutcome.miss
  playerFetch := FetchResult.ok tfPlayer
  schemaFetch := FetchResult.ok tfSchema
  globalFetch := FetchResult.ok tfGlobal
  setFails := false

/-- Witness for C9: the schema upstream answers HTTP-ok but without the
`availableGameStats` object. -/
theorem claim_C9_malformedSchema_witness :
    (run { happyEnv with schemaFetch := FetchResult.ok ⟨some ⟨"G", "1", none⟩⟩ }).response =
      ⟨500, ResponseBody.errorMsg "Failed to parse game schema data."⟩ :=
  claim_C9_malformedSchema _ "76561198000000001" "440" "KEY" tfPlayer ⟨some ⟨"G", "1", none⟩⟩
    (by decide) (by decide) (by decide) rfl (by decide) rfl (by decide)

/-- The error body Steam sends for a private profile. -/
def privateProfileBody : PlayerStatsResponse :=
  ⟨some ⟨none, none, none, false, some "Profile is not public"⟩⟩

/-- `happyEnv` with the player upstream answering HTTP 403 with the
private-profile error body. -/
def privateProfileEnv : HandlerEnv :=
  { happyEnv with playerFetch := FetchResult.notOk 403 (some privateProfileBody) }

/-- Witness for C8: Steam answers HTTP 403 whose body reports
`success: false` with a private-profile message; the route returns 404 with
that message. -/
theorem claim_C8_profileUnreadable_witness :
    (run privateProfileEnv).response =
      ⟨404, ResponseBody.errorMsg "Profile is not public"⟩ :=
  claim_C8_profileUnreadable _ "76561198000000001" "440" "KEY"
    privateProfileBody
    ⟨none, none, none, false, some "Profile is not public"⟩ "Profile is not public"
    (by decide) (by decide) (by decide) (Or.inl rfl) (Or.inl ⟨403, rfl⟩)
    rfl rfl rfl (by decide)

/-- `happyEnv` with the global-rarity fetch rejecting (transport error). -/
def rarityDownEnv : HandlerEnv :=
  { happyEnv with globalFetch := FetchResult.throws }

/-- `happyEnv` with the global-rarity fetch answering an HTTP error status. -/
def rarityHttpErrEnv : HandlerEnv :=
  { happyEnv with globalFetch := FetchResult.notOk 500 none }

/-- Counterexample to **C3** as stated: with player and schema fetches
succeeding, a global-rarity *transport error* (`fetch` rejecting) does not
degrade to an empty rarity list — it falls into the route's outer `catch` and
the request fails with the 500 internal error, while the identical environment
with a working rarity fetch answers 200.  (Only an HTTP error *status* fails
soft.) -/
theorem claim_C3_counterexample :
    rarityDownEnv.globalFetch = FetchResult.throws
    ∧ rarityDownEnv.playerFetch = FetchResult.ok tfPlayer
    ∧ rarityDownEnv.schemaFetch = FetchResult.ok tfSchema
    ∧ (run happyEnv).response.status = 200
    ∧ (run rarityDownEnv).response = internalError := by
  refine ⟨rfl, rfl, rfl, ?_, ?_⟩ <;> decide

/-- **C3** (amended): if the global-rarity fetch resolves with an HTTP error
status, the request still succeeds — the rarity dataset degrades to the empty
default structure and every returned achievement carries `percent = 100`.
(As the counterexample shows, a transport error or malformed body instead
propagates to the outer catch as a 500, so the original "fails in any way"
wording is too strong.) -/
theorem claim_C3_amended (env : HandlerEnv) (sid aid key : String)
    (pd : PlayerStatsResponse) (sd : SchemaResponse) (st : Nat)
    (eb : Option GlobalPercentagesResponse)
    (hsid : optTruthy env.steamId = some sid)
    (haid : optTruthy env.appId = some aid)
    (hkey : optTruthy env.apiKey = some key)
    (hp : (playerStage env sid aid).result = Except.ok pd)
    (hps : playerSuccess pd = true)
    (hs : (schemaStage env aid).result = Except.ok sd)
    (hgood : schemaHasAchievements sd = true)
    (hnohit : env.redisConnects = false ∨ env.globalCacheGet = GetOutcome.err ∨
      env.globalCacheGet = GetOutcome.miss)
    (hg : env.globalFetch = FetchResult.notOk st eb) :
    ∃ achs, (run env).response = ⟨200, ResponseBody.success (gameNameOf sd) sid achs⟩ ∧
      ∀ c ∈ achs, c.percent = 100 := by
  have hgcached : (if env.redisConnects then
      match env.globalCacheGet with
      | GetOutcome.hit d => some d
      | _ => none
    else none) = (none : Option GlobalPercentagesResponse) := by
    rcases hnohit with h | h | h <;> simp [h]
  have hgstage : (globalStage env aid).result = Except.ok ⟨some ⟨[]⟩⟩ := by
    simp only [globalStage, hgcached, hg]
  refine ⟨sortCombined (combinedList (playerAchList pd) (schemaAchList sd)
      (globalAchList ⟨some ⟨[]⟩⟩)), ?_, ?_⟩
  · simp only [run, hsid, haid, hkey, hp, hps, hs, hgood, hgstage]
    simp
  · intro c hc
    simp only [sortCombined, List.mem_mergeSort, combinedList, List.mem_map] at hc
    obtain ⟨sch, _, rfl⟩ := hc
    simp [combineOne, globalAchList, jsMapLookup]

/-- Witness for the amended C3: rarity upstream answers HTTP 500, both
achievements are still returned, each with `percent = 100`. -/
theorem claim_C3_amended_witness :
    ∃ achs, (run rarityHttpErrEnv).response =
        ⟨200, ResponseBody.success (gameNameOf tfSchema) "76561198000000001" achs⟩ ∧
      ∀ c ∈ achs, c.percent = 100 :=
  claim_C3_amended rarityHttpErrEnv "76561198000000001" "440" "KEY" tfPlayer tfSchema 500 none
    (by decide) (by decide) (by decide) rfl (by decide) rfl (by decide) (Or.inl rfl) rfl

/-- The comparator relation is total. -/
theorem sortLE_total (a b : CombinedAchievement) : sortLE a b || sortLE b a := by
  simp only [sortLE]
  by_cases ha : a.achieved <;> by_cases hb : b.achieved <;>
    rcases le_total a.percent b.percent with h | h <;> simp [ha, hb, h]

/-- The comparator relation is transitive. -/
theorem sortLE_trans (a b c : CombinedAchievement) (hab : sortLE a b) (hbc : sortLE b c) :
    sortLE a c := by
  simp only [sortLE] at *
  by_cases ha : a.achieved <;> by_cases hb : b.achieved <;> by_cases hc : c.achieved <;>
    simp_all <;> exact le_trans hab hbc

/-- What a single comparator step guarantees: achieved-before-unachieved and,
within an equal achieved flag, ascending percent. -/
theorem sortLE_imp (a b : CombinedAchievement) (h : sortLE a b) :
    (b.achieved = true → a.achieved = true) ∧
      (a.achieved = b.achieved → a.percent ≤ b.percent) := by
  simp only [sortLE] at h
  by_cases ha : a.achieved <;> by_cases hb : b.achieved <;> simp_all

/-- Two elements tied on both sort keys are related by the comparator. -/
theorem tied_imp_sortLE (a b : CombinedAchievement)
    (h : a.achieved = b.achieved ∧ a.percent = b.percent) : sortLE a b := by
  simp [sortLE, h.1, h.2]

/-- **C1**: for a readable profile and a well-formed schema the returned list
is a permutation of (hence in bijection with) the schema list mapped through
the join: exactly one combined achievement per schema entry, with
`achieved = (player entry's achieved == 1, false when absent)`,
`unlocktime = player entry's unlocktime or 0`, and
`percent = global-rarity value or 100 when absent`. -/
theorem claim_C1_exactJoin (env : HandlerEnv) (sid aid key : String)
    (pd : PlayerStatsResponse) (sd : SchemaResponse) (gd : GlobalPercentagesResponse)
    (hsid : optTruthy env.steamId = some sid)
    (haid : optTruthy env.appId = some aid)
    (hkey : optTruthy env.apiKey = some key)
    (hp : (playerStage env sid aid).result = Except.ok pd)
    (hps : playerSuccess pd = true)
    (hs : (schemaStage env aid).result = Except.ok sd)
    (hgood : schemaHasAchievements sd = true)
    (hg : (globalStage env aid).result = Except.ok gd) :
    ∃ achs, (run env).response = ⟨200, ResponseBody.success (gameNameOf sd) sid achs⟩ ∧
      achs.length = (schemaAchList sd).length ∧
      achs.Perm ((schemaAchList sd).map (fun sch =>
        { toAchievementSchema := sch
          achieved :=
            match jsMapLookup ((playerAchList pd).map (fun a => (a.apiname, a))) sch.name with
            | some pa => pa.achieved == 1
            | none => false
          unlocktime :=
            match jsMapLookup ((playerAchList pd).map (fun a => (a.apiname, a))) sch.name with
            | some pa => pa.unlocktime
            | none => 0
          percent :=
            (jsMapLookup ((globalAchList gd).map (fun a => (a.name, a.percent))) sch.name).getD
              100 })) := by
  refine ⟨sortCombined (combinedList (playerAchList pd) (schemaAchList sd) (globalAchList gd)),
    ?_, ?_, ?_⟩
  · simp only [run, hsid, haid, hkey, hp, hps, hs, hgood, hg]
    simp
  · simp [sortCombined, combinedList]
  · simpa [sortCombined, combinedList, combineOne] using
      List.mergeSort_perm
        (combinedList (playerAchList pd) (schemaAchList sd) (globalAchList gd)) sortLE

/-- **C2**: the returned list is sorted by the two-level comparator — along
every adjacent pair achieved comes before unachieved and, within an equal
achieved flag, percent ascends — and the sort is stable: any run of elements
tied on both keys occurs in the result in its original schema order. -/
theorem claim_C2_sorted (env : HandlerEnv) (sid aid key : String)
    (pd : PlayerStatsResponse) (sd : SchemaResponse) (gd : GlobalPercentagesResponse)
    (hsid : optTruthy env.steamId = some sid)
    (haid : optTruthy env.appId = some aid)
    (hkey : optTruthy env.apiKey = some key)
    (hp : (playerStage env sid aid).result = Except.ok pd)
    (hps : playerSuccess pd = true)
    (hs : (schemaStage env aid).result = Except.ok sd)
    (hgood : schemaHasAchievements sd = true)
    (hg : (globalStage env aid).result = Except.ok gd) :
    ∃ achs, (run env).response = ⟨200, ResponseBody.success (gameNameOf sd) sid achs⟩ ∧
      achs.Chain' (fun a b => (b.achieved = true → a.achieved = true) ∧
        (a.achieved = b.achieved → a.percent ≤ b.percent)) ∧
      (∀ c : List CombinedAchievement,
        c.Pairwise (fun a b => a.achieved = b.achieved ∧ a.percent = b.percent) →
        c.Sublist (combinedList (playerAchList pd) (schemaAchList sd) (globalAchList gd)) →
        c.Sublist achs) := by
  refine ⟨sortCombined (combinedList (playerAchList pd) (schemaAchList sd) (globalAchList gd)),
    ?_, ?_, ?_⟩
  · simp only [run, hsid, haid, hkey, hp, hps, hs, hgood, hg]
    simp
  · have hpw := List.sorted_mergeSort sortLE_trans sortLE_total
      (combinedList (playerAchList pd) (schemaAchList sd) (globalAchList gd))
    exact hpw.chain'.imp (fun a b h => sortLE_imp a b h)
  · intro c hc hsub
    exact List.sublist_mergeSort sortLE_trans sortLE_total
      (hc.imp (fun h => tied_imp_sortLE _ _ h)) hsub

/-- Witness for C1 at the spec's appId 440 scenario. -/
theorem claim_C1_exactJoin_witness :
    ∃ achs, (run happyEnv).response =
        ⟨200, ResponseBody.success (gameNameOf tfSchema) "76561198000000001" achs⟩ ∧
      achs.length = (schemaAchList tfSchema).length ∧
      achs.Perm ((schemaAchList tfSchema).map (fun sch =>
        { toAchievementSchema := sch
          achieved :=
            match jsMapLookup ((playerAchList tfPlayer).map (fun a => (a.apiname, a)))
                sch.name with
            | some pa => pa.achieved == 1
            | none => false
          unlocktime :=
            match jsMapLookup ((playerAchList tfPlayer).map (fun a => (a.apiname, a)))
                sch.name with
            | some pa => pa.unlocktime
            | none => 0
          percent :=
            (jsMapLookup ((globalAchList tfGlobal).map (fun a => (a.name, a.percent)))
                sch.name).getD 100 })) :=
  claim_C1_exactJoin happyEnv "76561198000000001" "440" "KEY" tfPlayer tfSchema tfGlobal
    (by decide) (by decide) (by decide) rfl (by decide) rfl (by decide) rfl

/-- Witness for C2 at the spec's appId 440 scenario. -/
theorem claim_C2_sorted_witness :
    ∃ achs, (run happyEnv).response =
        ⟨200, ResponseBody.success (gameNameOf tfSchema) "76561198000000001" achs⟩ ∧
      achs.Chain' (fun a b => (b.achieved = true → a.achieved = true) ∧
        (a.achieved = b.achieved → a.percent ≤ b.percent)) ∧
      (∀ c : List CombinedAchievement,
        c.Pairwise (fun a b => a.achieved = b.achieved ∧ a.percent = b.percent) →
        c.Sublist (combinedList (playerAchList tfPlayer) (schemaAchList tfSchema)
          (globalAchList tfGlobal)) →
        c.Sublist achs) :=
  claim_C2_sorted happyEnv "76561198000000001" "440" "KEY" tfPlayer tfSchema tfGlobal
    (by decide) (by decide) (by decide) rfl (by decide) rfl (by decide) rfl

/-! ## Cache-failure degradation (C4) -/

/-- The environment in which `getRedisClient()` rejects: the route proceeds
with `redis` undefined, never touching the cache. -/
def connFailEnv (env : HandlerEnv) : HandlerEnv :=
  { env with redisConnects := false }

/-- The environment in which the connection succeeds but every `get` and
`set` operation rejects (each rejection caught and logged by the route). -/
def opsFailEnv (env : HandlerEnv) : HandlerEnv :=
  { env with
    redisConnects := true
    playerCacheGet := GetOutcome.err
    schemaCacheGet := GetOutcome.err
    globalCacheGet := GetOutcome.err
    setFails := true }

/-- The reference environment: a healthy cache that misses on every key. -/
def allMissEnv (env : HandlerEnv) : HandlerEnv :=
  { env with
    redisConnects := true
    playerCacheGet := GetOutcome.miss
    schemaCacheGet := GetOutcome.miss
    globalCacheGet := GetOutcome.miss
    setFails := false }

/-- The player stage ignores the cache outcome whenever it is not a hit, and
its result and calls depend only on the fetch outcome. -/
theorem playerStage_indep (e1 e2 : HandlerEnv) (sid aid : String)
    (hf : e1.playerFetch = e2.playerFetch)
    (h1 : e1.redisConnects = false ∨ e1.playerCacheGet = GetOutcome.err ∨
      e1.playerCacheGet = GetOutcome.miss)
    (h2 : e2.redisConnects = false ∨ e2.playerCacheGet = GetOutcome.err ∨
      e2.playerCacheGet = GetOutcome.miss) :
    (playerStage e1 sid aid).result = (playerStage e2 sid aid).result ∧
      (playerStage e1 sid aid).calls = (playerStage e2 sid aid).calls := by
  have hc1 : (if e1.redisConnects then
      match e1.playerCacheGet with
      | GetOutcome.hit d => some d
      | _ => none
    else none) = (none : Option PlayerStatsResponse) := by
    rcases h1 with h | h | h <;> simp [h]
  have hc2 : (if e2.redisConnects then
      match e2.playerCacheGet with
      | GetOutcome.hit d => some d
      | _ => none
    else none) = (none : Option PlayerStatsResponse) := by
    rcases h2 with h | h | h <;> simp [h]
  simp only [playerStage, hc1, hc2, hf]
  cases e2.playerFetch <;> simp

/-- The schema stage ignores the cache outcome whenever it is not a hit. -/
theorem schemaStage_indep (e1 e2 : HandlerEnv) (aid : String)
    (hf : e1.schemaFetch = e2.schemaFetch)
    (h1 : e1.redisConnects = false ∨ e1.schemaCacheGet = GetOutcome.err ∨
      e1.schemaCacheGet = GetOutcome.miss)
    (h2 : e2.redisConnects = false ∨ e2.schemaCacheGet = GetOutcome.err ∨
      e2.schemaCacheGet = GetOutcome.miss) :
    (schemaStage e1 aid).result = (schemaStage e2 aid).result ∧
      (schemaStage e1 aid).calls = (schemaStage e2 aid).calls := by
  have hc1 : (if e1.redisConnects then
      match e1.schemaCacheGet with
      | GetOutcome.hit d => some d
      | _ => none
    else none) = (none : Option SchemaResponse) := by
    rcases h1 with h | h | h <;> simp [h]
  have hc2 : (if e2.redisConnects then
      match e2.schemaCacheGet with
      | GetOutcome.hit d => some d
      | _ => none
    else none) = (none : Option SchemaResponse) := by
    rcases h2 with h | h | h <;> simp [h]
  simp only [schemaStage, hc1, hc2, hf]
  cases e2.schemaFetch <;> simp

/-- The global stage ignores the cache outcome whenever it is not a hit. -/
theorem globalStage_indep (e1 e2 : HandlerEnv) (aid : String)
    (hf : e1.globalFetch = e2.globalFetch)
    (h1 : e1.redisConnects = false ∨ e1.globalCacheGet = GetOutcome.err ∨
      e1.globalCacheGet = GetOutcome.miss)
    (h2 : e2.redisConnects = false ∨ e2.globalCacheGet = GetOutcome.err ∨
      e2.globalCacheGet = GetOutcome.miss) :
    (globalStage e1 aid).result = (globalStage e2 aid).result ∧
      (globalStage e1 aid).calls = (globalStage e2 aid).calls := by
  have hc1 : (if e1.redisConnects then
      match e1.globalCacheGet with
      | GetOutcome.hit d => some d
      | _ => none
    else none) = (none : Option GlobalPercentagesResponse) := by
    rcases h1 with h | h | h <;> simp [h]
  have hc2 : (if e2.redisConnects then
      match e2.globalCacheGet with
      | GetOutcome.hit d => some d
      | _ => none
    else none) = (none : Option GlobalPercentagesResponse) := by
    rcases h2 with h | h | h <;> simp [h]
  simp only [globalStage, hc1, hc2, hf]
  cases e2.globalFetch <;> simp

/-- Two environments whose request parameters agree and whose stages agree on
results and calls produce the same response and the same upstream calls. -/
theorem run_congr (e1 e2 : HandlerEnv)
    (hsid : e1.steamId = e2.steamId) (haid : e1.appId = e2.appId)
    (hkey : e1.apiKey = e2.apiKey)
    (hp : ∀ s a, (playerStage e1 s a).result = (playerStage e2 s a).result ∧
      (playerStage e1 s a).calls = (playerStage e2 s a).calls)
    (hs : ∀ a, (schemaStage e1 a).result = (schemaStage e2 a).result ∧
      (schemaStage e1 a).calls = (schemaStage e2 a).calls)
    (hg : ∀ a, (globalStage e1 a).result = (globalStage e2 a).result ∧
      (globalStage e1 a).calls = (globalStage e2 a).calls) :
    (run e1).response = (run e2).response ∧ (run e1).calls = (run e2).calls := by
  simp only [run, hsid, haid, hkey]
  split
  next => exact ⟨rfl, rfl⟩
  next sid hsideq =>
    split
    next => exact ⟨rfl, rfl⟩
    next aid haideq =>
      split
      next => exact ⟨rfl, rfl⟩
      next key hkeyeq =>
        obtain ⟨hpr, hpc⟩ := hp sid aid
        obtain ⟨hsr, hsc⟩ := hs aid
        obtain ⟨hgr, hgc⟩ := hg aid
        rw [hpr, hpc, hsr, hsc, hgr, hgc]
        cases hres : (playerStage e2 sid aid).result with
        | error r => exact ⟨rfl, rfl⟩
        | ok pd =>
          by_cases hv : playerSuccess pd = false
          · simp [hv]
          · simp only [if_neg hv]
            cases hsres : (schemaStage e2 aid).result with
            | error r => exact ⟨rfl, rfl⟩
            | ok sd =>
              by_cases hw : schemaHasAchievements sd = false
              · simp [hw]
              · simp only [if_neg hw]
                cases hgres : (globalStage e2 aid).result with
                | error r => exact ⟨rfl, rfl⟩
                | ok gd => exact ⟨rfl, rfl⟩

/-- **C4**: whether the cache connection fails, or every `get`/`set` operation
fails, the handler returns exactly the response (and issues exactly the
upstream calls) of a run against a healthy all-miss cache: a cache failure is
indistinguishable from a cache miss and never surfaces to the caller. -/
theorem claim_C4_cacheFailureIsMiss (env : HandlerEnv) :
    ((run (connFailEnv env)).response = (run (allMissEnv env)).response
      ∧ (run (connFailEnv env)).calls = (run (allMissEnv env)).calls)
    ∧ ((run (opsFailEnv env)).response = (run (allMissEnv env)).response
      ∧ (run (opsFailEnv env)).calls = (run (allMissEnv env)).calls) := by
  constructor
  · exact run_congr _ _ (by simp [connFailEnv, allMissEnv]) (by simp [connFailEnv, allMissEnv])
      (by simp [connFailEnv, allMissEnv])
      (fun s a => playerStage_indep _ _ s a (by simp [connFailEnv, allMissEnv])
        (Or.inl (by simp [connFailEnv])) (Or.inr (Or.inr (by simp [allMissEnv]))))
      (fun a => schemaStage_indep _ _ a (by simp [connFailEnv, allMissEnv])
        (Or.inl (by simp [connFailEnv])) (Or.inr (Or.inr (by simp [allMissEnv]))))
      (fun a => globalStage_indep _ _ a (by simp [connFailEnv, allMissEnv])
        (Or.inl (by simp [connFailEnv])) (Or.inr (Or.inr (by simp [allMissEnv]))))
  · exact run_congr _ _ (by simp [opsFailEnv, allMissEnv]) (by simp [opsFailEnv, allMissEnv])
      (by simp [opsFailEnv, allMissEnv])
      (fun s a => playerStage_indep _ _ s a (by simp [opsFailEnv, allMissEnv])
        (Or.inr (Or.inl (by simp [opsFailEnv]))) (Or.inr (Or.inr (by simp [allMissEnv]))))
      (fun a => schemaStage_indep _ _ a (by simp [opsFailEnv, allMissEnv])
        (Or.inr (Or.inl (by simp [opsFailEnv]))) (Or.inr (Or.inr (by simp [allMissEnv]))))
      (fun a => globalStage_indep _ _ a (by simp [opsFailEnv, allMissEnv])
        (Or.inr (Or.inl (by simp [opsFailEnv]))) (Or.inr (Or.inr (by simp [allMissEnv]))))

/-! ## Cache round-trip (C10) -/

/-- The value stored in the cache under `k` after a list of writes (later
writes overwrite earlier ones, as successive `SET`s do). -/
def lookupWrite (ws : List CacheWrite) (k : String) : Option CachedVal :=
  (ws.reverse.find? (fun w => w.key == k)).map (fun w => w.val)

/-- Cache-read behaviour produced by a write list for a player key, within the
TTL window of every write. -/
def cacheGetP (ws : List CacheWrite) (k : String) : GetOutcome PlayerStatsResponse :=
  match lookupWrite ws k with
  | some (CachedVal.pv d) => GetOutcome.hit d
  | _ => GetOutcome.miss

/-- Cache-read behaviour produced by a write list for a schema key. -/
def cacheGetS (ws : List CacheWrite) (k : String) : GetOutcome SchemaResponse :=
  match lookupWrite ws k with
  | some (CachedVal.sv d) => GetOutcome.hit d
  | _ => GetOutcome.miss

/-- Cache-read behaviour produced by a write list for a global key. -/
def cacheGetG (ws : List CacheWrite) (k : String) : GetOutcome GlobalPercentagesResponse :=
  match lookupWrite ws k with
  | some (CachedVal.gv d) => GetOutcome.hit d
  | _ => GetOutcome.miss

/-- The three stable cache keys are pairwise distinct (their literal prefixes
differ already at the first character). -/
theorem cacheKeys_distinct (sid aid aid' : String) :
    playerCacheKey sid aid ≠ schemaCacheKey aid' ∧
    playerCacheKey sid aid ≠ globalCacheKey aid' ∧
    schemaCacheKey aid ≠ globalCacheKey aid' := by
  refine ⟨?_, ?_, ?_⟩ <;> intro h <;>
  · have hd := congrArg (fun s => s.data.head?) h
    simp [playerCacheKey, schemaCacheKey, globalCacheKey, String.data_append] at hd

/-- The player stage writes nothing or exactly its payload under its key with
the standard TTL. -/
theorem playerStage_writes_shape (env : HandlerEnv) (sid aid : String) :
    (playerStage env sid aid).writes = [] ∨
      ∃ d, (playerStage env sid aid).writes =
        [⟨playerCacheKey sid aid, CachedVal.pv d, CACHE_TTL_SECONDS⟩] := by
  simp only [playerStage]
  repeat' split
  all_goals first | exact Or.inl rfl | exact Or.inr ⟨_, rfl⟩

/-- The schema stage writes nothing or exactly its payload under its key. -/
theorem schemaStage_writes_shape (env : HandlerEnv) (aid : String) :
    (schemaStage env aid).writes = [] ∨
      ∃ d, (schemaStage env aid).writes =
        [⟨schemaCacheKey aid, CachedVal.sv d, CACHE_TTL_SECONDS⟩] := by
  simp only [schemaStage]
  repeat' split
  all_goals first | exact Or.inl rfl | exact Or.inr ⟨_, rfl⟩

/-- The global stage writes nothing or exactly its payload under its key. -/
theorem globalStage_writes_shape (env : HandlerEnv) (aid : String) :
    (globalStage env aid).writes = [] ∨
      ∃ d, (globalStage env aid).writes =
        [⟨globalCacheKey aid, CachedVal.gv d, CACHE_TTL_SECONDS⟩] := by
  simp only [globalStage]
  repeat' split
  all_goals first | exact Or.inl rfl | exact Or.inr ⟨_, rfl⟩

/-- The player stage issues no call (cache hit) or exactly one player call. -/
theorem playerStage_calls_shape (env : HandlerEnv) (sid aid : String) :
    (playerStage env sid aid).calls = [] ∨
      (playerStage env sid aid).calls = [UpstreamCall.playerCall] := by
  simp only [playerStage]
  repeat' split
  all_goals first | exact Or.inl rfl | exact Or.inr rfl

/-- The schema stage issues no call or exactly one schema call. -/
theorem schemaStage_calls_shape (env : HandlerEnv) (aid : String) :
    (schemaStage env aid).calls = [] ∨
      (schemaStage env aid).calls = [UpstreamCall.schemaCall] := by
  simp only [schemaStage]
  repeat' split
  all_goals first | exact Or.inl rfl | exact Or.inr rfl

/-- The global stage issues no call or exactly one global call. -/
theorem globalStage_calls_shape (env : HandlerEnv) (aid : String) :
    (globalStage env aid).calls = [] ∨
      (globalStage env aid).calls = [UpstreamCall.globalCall] := by
  simp only [globalStage]
  repeat' split
  all_goals first | exact Or.inl rfl | exact Or.inr rfl

/-- Decomposition of a run's cache writes into the three per-stage write
lists (later stages may not have run). -/
theorem run_writes_decomp (env : HandlerEnv) (sid aid key : String)
    (hsid : optTruthy env.steamId = some sid)
    (haid : optTruthy env.appId = some aid)
    (hkey : optTruthy env.apiKey = some key) :
    ∃ pw sw gw : List CacheWrite,
      (run env).writes = pw ++ sw ++ gw ∧
      (pw = [] ∨ ∃ d, pw = [⟨playerCacheKey sid aid, CachedVal.pv d, CACHE_TTL_SECONDS⟩]) ∧
      (sw = [] ∨ ∃ d, sw = [⟨schemaCacheKey aid, CachedVal.sv d, CACHE_TTL_SECONDS⟩]) ∧
      (gw = [] ∨ ∃ d, gw = [⟨globalCacheKey aid, CachedVal.gv d, CACHE_TTL_SECONDS⟩]) := by
  simp only [run, hsid, haid, hkey]
  split
  · exact ⟨(playerStage env sid aid).writes, [], [], by simp,
      playerStage_writes_shape env sid aid, Or.inl rfl, Or.inl rfl⟩
  · split
    · exact ⟨(playerStage env sid aid).writes, [], [], by simp,
        playerStage_writes_shape env sid aid, Or.inl rfl, Or.inl rfl⟩
    · split
      · exact ⟨(playerStage env sid aid).writes, (schemaStage env aid).writes, [], by simp,
          playerStage_writes_shape env sid aid, schemaStage_writes_shape env aid, Or.inl rfl⟩
      · split
        · exact ⟨(playerStage env sid aid).writes, (schemaStage env aid).writes, [], by simp,
            playerStage_writes_shape env sid aid, schemaStage_writes_shape env aid, Or.inl rfl⟩
        · split
          · exact ⟨(playerStage env sid aid).writes, (schemaStage env aid).writes,
              (globalStage env aid).writes, by simp, playerStage_writes_shape env sid aid,
              schemaStage_writes_shape env aid, globalStage_writes_shape env aid⟩
          · exact ⟨(playerStage env sid aid).writes, (schemaStage env aid).writes,
              (globalStage env aid).writes, by simp, playerStage_writes_shape env sid aid,
              schemaStage_writes_shape env aid, globalStage_writes_shape env aid⟩

/-- Decomposition of a run's upstream calls into the three per-stage call
lists (later stages may not have run). -/
theorem run_calls_decomp (env : HandlerEnv) (sid aid key : String)
    (hsid : optTruthy env.steamId = some sid)
    (haid : optTruthy env.appId = some aid)
    (hkey : optTruthy env.apiKey = some key) :
    ∃ sc gc : List UpstreamCall,
      (run env).calls = (playerStage env sid aid).calls ++ sc ++ gc ∧
      (sc = [] ∨ sc = (schemaStage env aid).calls) ∧
      (gc = [] ∨ gc = (globalStage env aid).calls) := by
  simp only [run, hsid, haid, hkey]
  split
  · exact ⟨[], [], by simp, Or.inl rfl, Or.inl rfl⟩
  · split
    · exact ⟨[], [], by simp, Or.inl rfl, Or.inl rfl⟩
    · split
      · exact ⟨(schemaStage env aid).calls, [], by simp, Or.inr rfl, Or.inl rfl⟩
      · split
        · exact ⟨(schemaStage env aid).calls, [], by simp, Or.inr rfl, Or.inl rfl⟩
        · split
          · exact ⟨(schemaStage env aid).calls, (globalStage env aid).calls, by simp,
              Or.inr rfl, Or.inr rfl⟩
          · exact ⟨(schemaStage env aid).calls, (globalStage env aid).calls, by simp,
              Or.inr rfl, Or.inr rfl⟩

/-- If a run cached a player payload, the store afterwards holds exactly that
payload under the player key. -/
theorem lookupWrite_pv (env : HandlerEnv) (sid aid key : String)
    (hsid : optTruthy env.steamId = some sid)
    (haid : optTruthy env.appId = some aid)
    (hkey : optTruthy env.apiKey = some key) (d : PlayerStatsResponse)
    (hmem : (⟨playerCacheKey sid aid, CachedVal.pv d, CACHE_TTL_SECONDS⟩ : CacheWrite) ∈
      (run env).writes) :
    lookupWrite (run env).writes (playerCacheKey sid aid) = some (CachedVal.pv d) := by
  obtain ⟨pw, sw, gw, hde, hp, hs, hg⟩ := run_writes_decomp env sid aid key hsid haid hkey
  obtain ⟨hps, hpg, _⟩ := cacheKeys_distinct sid aid aid
  have h1 : (schemaCacheKey aid == playerCacheKey sid aid) = false :=
    beq_eq_false_iff_ne.mpr (Ne.symm hps)
  have h2 : (globalCacheKey aid == playerCacheKey sid aid) = false :=
    beq_eq_false_iff_ne.mpr (Ne.symm hpg)
  rw [hde] at hmem ⊢
  have hpw : pw = [⟨playerCacheKey sid aid, CachedVal.pv d, CACHE_TTL_SECONDS⟩] := by
    simp only [List.mem_append] at hmem
    rcases hmem with (hmem | hmem) | hmem
    · rcases hp with rfl | ⟨d', rfl⟩ <;> simp_all
    · rcases hs with rfl | ⟨d', rfl⟩ <;> simp_all
    · rcases hg with rfl | ⟨d', rfl⟩ <;> simp_all
  subst hpw
  rcases hs with rfl | ⟨ds, rfl⟩ <;> rcases hg with rfl | ⟨dg, rfl⟩ <;>
    simp [lookupWrite, h1, h2]

/-- If a run cached a schema payload, the store afterwards holds exactly that
payload under the schema key. -/
theorem lookupWrite_sv (env : HandlerEnv) (sid aid key : String)
    (hsid : optTruthy env.steamId = some sid)
    (haid : optTruthy env.appId = some aid)
    (hkey : optTruthy env.apiKey = some key) (d : SchemaResponse)
    (hmem : (⟨schemaCacheKey aid, CachedVal.sv d, CACHE_TTL_SECONDS⟩ : CacheWrite) ∈
      (run env).writes) :
    lookupWrite (run env).writes (schemaCacheKey aid) = some (CachedVal.sv d) := by
  obtain ⟨pw, sw, gw, hde, hp, hs, hg⟩ := run_writes_decomp env sid aid key hsid haid hkey
  obtain ⟨hps, _, hsg⟩ := cacheKeys_distinct sid aid aid
  have h1 : (playerCacheKey sid aid == schemaCacheKey aid) = false :=
    beq_eq_false_iff_ne.mpr hps
  have h2 : (globalCacheKey aid == schemaCacheKey aid) = false :=
    beq_eq_false_iff_ne.mpr (Ne.symm hsg)
  rw [hde] at hmem ⊢
  have hsw : sw = [⟨schemaCacheKey aid, CachedVal.sv d, CACHE_TTL_SECONDS⟩] := by
    simp only [List.mem_append] at hmem
    rcases hmem with (hmem | hmem) | hmem
    · rcases hp with rfl | ⟨d', rfl⟩ <;> simp_all
    · rcases hs with rfl | ⟨d', rfl⟩ <;> simp_all
    · rcases hg with rfl | ⟨d', rfl⟩ <;> simp_all
  subst hsw
  rcases hp with rfl | ⟨dp, rfl⟩ <;> rcases hg with rfl | ⟨dg, rfl⟩ <;>
    simp [lookupWrite, h1, h2, List.find?_append]

/-- If a run cached a global-percentages payload, the store afterwards holds
exactly that payload under the global key. -/
theorem lookupWrite_gv (env : HandlerEnv) (sid aid key : String)
    (hsid : optTruthy env.steamId = some sid)
    (haid : optTruthy env.appId = some aid)
    (hkey : optTruthy env.apiKey = some key) (d : GlobalPercentagesResponse)
    (hmem : (⟨globalCacheKey aid, CachedVal.gv d, CACHE_TTL_SECONDS⟩ : CacheWrite) ∈
      (run env).writes) :
    lookupWrite (run env).writes (globalCacheKey aid) = some (CachedVal.gv d) := by
  obtain ⟨pw, sw, gw, hde, hp, hs, hg⟩ := run_writes_decomp env sid aid key hsid haid hkey
  rw [hde] at hmem ⊢
  have hgw : gw = [⟨globalCacheKey aid, CachedVal.gv d, CACHE_TTL_SECONDS⟩] := by
    simp only [List.mem_append] at hmem
    rcases hmem with (hmem | hmem) | hmem
    · rcases hp with rfl | ⟨d', rfl⟩ <;> simp_all
    · rcases hs with rfl | ⟨d', rfl⟩ <;> simp_all
    · rcases hg with rfl | ⟨d', rfl⟩ <;> simp_all
  subst hgw
  simp [lookupWrite, List.find?_append]

/-- **C10**: every cache write of a run carries TTL 3600 under its stable key,
and a second request for the same `(identity, appId)` whose cache reads see the
first run's writes (still within the TTL window) resolves each written key
from the cache — returning exactly the cached payload for that key — and
issues no upstream gateway call for it. -/
theorem claim_C10_cacheRoundTrip (env1 env2 : HandlerEnv) (sid aid key1 key2 : String)
    (h1sid : optTruthy env1.steamId = some sid)
    (h1aid : optTruthy env1.appId = some aid)
    (h1key : optTruthy env1.apiKey = some key1)
    (h2sid : optTruthy env2.steamId = some sid)
    (h2aid : optTruthy env2.appId = some aid)
    (h2key : optTruthy env2.apiKey = some key2)
    (h2r : env2.redisConnects = true)
    (h2p : env2.playerCacheGet = cacheGetP (run env1).writes (playerCacheKey sid aid))
    (h2s : env2.schemaCacheGet = cacheGetS (run env1).writes (schemaCacheKey aid))
    (h2g : env2.globalCacheGet = cacheGetG (run env1).writes (globalCacheKey aid)) :
    (∀ w ∈ (run env1).writes, w.ttl = CACHE_TTL_SECONDS)
    ∧ (∀ d : PlayerStatsResponse,
        (⟨playerCacheKey sid aid, CachedVal.pv d, CACHE_TTL_SECONDS⟩ : CacheWrite) ∈
          (run env1).writes →
        (playerStage env2 sid aid).result = Except.ok d ∧
          UpstreamCall.playerCall ∉ (run env2).calls)
    ∧ (∀ d : SchemaResponse,
        (⟨schemaCacheKey aid, CachedVal.sv d, CACHE_TTL_SECONDS⟩ : CacheWrite) ∈
          (run env1).writes →
        (schemaStage env2 aid).result = Except.ok d ∧
          UpstreamCall.schemaCall ∉ (run env2).calls)
    ∧ (∀ d : GlobalPercentagesResponse,
        (⟨globalCacheKey aid, CachedVal.gv d, CACHE_TTL_SECONDS⟩ : CacheWrite) ∈
          (run env1).writes →
        (globalStage env2 aid).result = Except.ok d ∧
          UpstreamCall.globalCall ∉ (run env2).calls) := by
  refine ⟨?_, ?_, ?_, ?_⟩
  · intro w hw
    obtain ⟨pw, sw, gw, hde, hp, hs, hg⟩ := run_writes_decomp env1 sid aid key1 h1sid h1aid h1key
    rw [hde] at hw
    simp only [List.mem_append] at hw
    rcases hw with (hw | hw) | hw
    · rcases hp with rfl | ⟨d', rfl⟩ <;> simp_all
    · rcases hs with rfl | ⟨d', rfl⟩ <;> simp_all
    · rcases hg with rfl | ⟨d', rfl⟩ <;> simp_all
  · intro d hmem
    have hlook := lookupWrite_pv env1 sid aid key1 h1sid h1aid h1key d hmem
    have hstage : playerStage env2 sid aid = ⟨Except.ok d, [], []⟩ := by
      simp only [playerStage, h2r, h2p, cacheGetP, hlook]
      simp
    refine ⟨by rw [hstage], ?_⟩
    obtain ⟨sc, gc, hcde, hsc, hgc⟩ := run_calls_decomp env2 sid aid key2 h2sid h2aid h2key
    rw [hcde, hstage]
    rcases hsc with rfl | hsc <;> rcases hgc with rfl | hgc <;>
      [skip; rcases globalStage_calls_shape env2 aid with h | h;
        rcases schemaStage_calls_shape env2 aid with h | h;
        (rcases schemaStage_calls_shape env2 aid with h | h <;>
          rcases globalStage_calls_shape env2 aid with h' | h')] <;>
      simp_all
  · intro d hmem
    have hlook := lookupWrite_sv env1 sid aid key1 h1sid h1aid h1key d hmem
    have hstage : schemaStage env2 aid = ⟨Except.ok d, [], []⟩ := by
      simp only [schemaStage, h2r, h2s, cacheGetS, hlook]
      simp
    refine ⟨by rw [hstage], ?_⟩
    obtain ⟨sc, gc, hcde, hsc, hgc⟩ := run_calls_decomp env2 sid aid key2 h2sid h2aid h2key
    rw [hcde] at *
    rcases playerStage_calls_shape env2 sid aid with hpcs | hpcs <;>
      rcases hsc with rfl | hsc <;> rcases hgc with rfl | hgc <;>
      [skip; rcases globalStage_calls_shape env2 aid with h | h; (rw [hsc, hstage]);
        (rw [hsc, hstage]; rcases globalStage_calls_shape env2 aid with h | h);
        skip; rcases globalStage_calls_shape env2 aid with h | h; (rw [hsc, hstage]);
        (rw [hsc, hstage]; rcases globalStage_calls_shape env2 aid with h | h)] <;>
      simp_all
  · intro d hmem
    have hlook := lookupWrite_gv env1 sid aid key1 h1sid h1aid h1key d hmem
    have hstage : globalStage env2 aid = ⟨Except.ok d, [], []⟩ := by
      simp only [globalStage, h2r, h2g, cacheGetG, hlook]
      simp
    refine ⟨by rw [hstage], ?_⟩
    obtain ⟨sc, gc, hcde, hsc, hgc⟩ := run_calls_decomp env2 sid aid key2 h2sid h2aid h2key
    rw [hcde]
    rcases playerStage_calls_shape env2 sid aid with hpcs | hpcs <;>
      rcases hsc with rfl | hsc <;> rcases hgc with rfl | hgc <;>
      [skip; (rw [hgc, hstage]); rcases schemaStage_calls_shape env2 aid with h | h;
        (rw [hgc, hstage]; rcases schemaStage_calls_shape env2 aid with h | h);
        skip; (rw [hgc, hstage]); rcases schemaStage_calls_shape env2 aid with h | h;
        (rw [hgc, hstage]; rcases schemaStage_calls_shape env2 aid with h | h)] <;>
      simp_all

/-- `happyEnv` with a healthy cache: the first request misses everywhere,
fetches and caches. -/
def cachingEnv : HandlerEnv :=
  { happyEnv with redisConnects := true }

/-- The second request: identical parameters, cache reads served from the
first request's writes. -/
def secondEnv : HandlerEnv :=
  { cachingEnv with
    playerCacheGet := cacheGetP (run cachingEnv).writes (playerCacheKey "76561198000000001" "440")
    schemaCacheGet := cacheGetS (run cachingEnv).writes (schemaCacheKey "440")
    globalCacheGet := cacheGetG (run cachingEnv).writes (globalCacheKey "440") }

/-- Witness for C10 at the spec scenario: after the caching first request, the
second request resolves every written key from the cache and calls no
upstream for it. -/
theorem claim_C10_cacheRoundTrip_witness :
    (∀ w ∈ (run cachingEnv).writes, w.ttl = CACHE_TTL_SECONDS)
    ∧ (∀ d : PlayerStatsResponse,
        (⟨playerCacheKey "76561198000000001" "440", CachedVal.pv d,
            CACHE_TTL_SECONDS⟩ : CacheWrite) ∈ (run cachingEnv).writes →
        (playerStage secondEnv "76561198000000001" "440").result = Except.ok d ∧
          UpstreamCall.playerCall ∉ (run secondEnv).calls)
    ∧ (∀ d : SchemaResponse,
        (⟨schemaCacheKey "440", CachedVal.sv d, CACHE_TTL_SECONDS⟩ : CacheWrite) ∈
          (run cachingEnv).writes →
        (schemaStage secondEnv "440").result = Except.ok d ∧
          UpstreamCall.schemaCall ∉ (run secondEnv).calls)
    ∧ (∀ d : GlobalPercentagesResponse,
        (⟨globalCacheKey "440", CachedVal.gv d, CACHE_TTL_SECONDS⟩ : CacheWrite) ∈
          (run cachingEnv).writes →
        (globalStage secondEnv "440").result = Except.ok d ∧
          UpstreamCall.globalCall ∉ (run secondEnv).calls) :=
  claim_C10_cacheRoundTrip cachingEnv secondEnv "76561198000000001" "440" "KEY" "KEY"
    (by decide) (by decide) (by decide) (by decide) (by decide) (by decide)
    rfl rfl rfl rfl
